import Mathlib

/-!
Verification development for the horos repository.

The repository's frontend (TypeScript, under `src/frontend` and the unnamed
sources) is embedded directly from the code.  The backend panchangam engine is
not present in the repository sources; only its Phase-1 engineering
specification (the "AstroZone Daily Panchangam" document) ships with the
repository, so the engine is modelled from that specification.  Times are
rational numbers of minutes measured from local midnight of the request date.
-/

namespace Horos

/-- A half-open time window `[start, stop)`; `stop` is the TypeScript `end`
field, which is a reserved word in Lean. -/
structure TimeWindow where
  start : ℚ
  stop : ℚ
  deriving DecidableEq, Repr

/-- Weekday (Vara), determined at sunrise. -/
inductive Weekday
  | sun | mon | tue | wed | thu | fri | sat
  deriving DecidableEq, Repr

/-- Sunrise, sunset and next sunrise supplied by the ephemeris gateway,
in minutes from local midnight of the request date. -/
structure EphemerisDay where
  sunrise : ℚ
  sunset : ℚ
  nextSunrise : ℚ
  deriving DecidableEq, Repr

/-- Modelled from the spec: section 6.1 of the Phase-1 requirements document
(the engine implementation is not in the repository sources).  The `idx`-th of
the 8 equal segments of the daytime span `D = sunset - sunrise`, 1-based:
`[sunrise + (idx-1)*D/8, sunrise + idx*D/8)`. -/
def kalaSegment (sunrise sunset : ℚ) (idx : ℕ) : TimeWindow :=
  let D := sunset - sunrise
  ⟨sunrise + ((idx : ℚ) - 1) * (D / 8), sunrise + (idx : ℚ) * (D / 8)⟩

/-- Modelled from the spec: Rahu Kalam segment index per weekday
(Sun=8, Mon=2, Tue=7, Wed=5, Thu=6, Fri=4, Sat=3). -/
def rahuIdx : Weekday → ℕ
  | .sun => 8 | .mon => 2 | .tue => 7 | .wed => 5 | .thu => 6 | .fri => 4 | .sat => 3

/-- Modelled from the spec: Yamagandam segment index per weekday
(Sun=5, Mon=4, Tue=3, Wed=2, Thu=1, Fri=7, Sat=6). -/
def yamaIdx : Weekday → ℕ
  | .sun => 5 | .mon => 4 | .tue => 3 | .wed => 2 | .thu => 1 | .fri => 7 | .sat => 6

/-- Modelled from the spec: Gulikai segment index per weekday
(Sun=7, Mon=6, Tue=5, Wed=4, Thu=3, Fri=2, Sat=1). -/
def gulikaiIdx : Weekday → ℕ
  | .sun => 7 | .mon => 6 | .tue => 5 | .wed => 4 | .thu => 3 | .fri => 2 | .sat => 1

/-- Modelled from the spec: the Rahu Kalam window. -/
def rahuKalam (e : EphemerisDay) (wd : Weekday) : TimeWindow :=
  kalaSegment e.sunrise e.sunset (rahuIdx wd)

/-- Modelled from the spec: the Yamagandam window. -/
def yamagandam (e : EphemerisDay) (wd : Weekday) : TimeWindow :=
  kalaSegment e.sunrise e.sunset (yamaIdx wd)

/-- Modelled from the spec: the Gulikai Kalam window. -/
def gulikai (e : EphemerisDay) (wd : Weekday) : TimeWindow :=
  kalaSegment e.sunrise e.sunset (gulikaiIdx wd)

/-- Modelled from the spec: section 6.2, Brahma Muhurta
`[sunrise - 96min, sunrise - 48min)`, not clipped to the Hindu day. -/
def brahmaMuhurta (sunrise : ℚ) : TimeWindow :=
  ⟨sunrise - 96, sunrise - 48⟩

/-- Modelled from the spec: section 6.3, Abhijit Muhurta
`[LNT - half, LNT + half)` with `LNT = sunrise + (sunset - sunrise)/2` and
`half = (sunset - sunrise)/30`. -/
def abhijitMuhurta (sunrise sunset : ℚ) : TimeWindow :=
  let lnt := sunrise + (sunset - sunrise) / 2
  let half := (sunset - sunrise) / 30
  ⟨lnt - half, lnt + half⟩

/-- Local apparent noon used by Abhijit Muhurta. -/
def localNoon (sunrise sunset : ℚ) : ℚ :=
  sunrise + (sunset - sunrise) / 2

/-- Index of the civil calendar day containing instant `t` (minutes from local
midnight of the request date); day 0 is the request date itself. -/
def civilDayIndex (t : ℚ) : ℤ :=
  ⌊t / 1440⌋

/-- Modelled from the spec: Day Ghati `= (sunset - sunrise)/30`. -/
def dayGhati (sunrise sunset : ℚ) : ℚ :=
  (sunset - sunrise) / 30

/-- Modelled from the spec: Night Ghati `= (nextSunrise - sunset)/30`. -/
def nightGhati (sunset nextSunrise : ℚ) : ℚ :=
  (nextSunrise - sunset) / 30

/-- Phase of a Dur Muhurtam window: day offsets count from sunrise in Day
Ghatis, night offsets from sunset in Night Ghatis. -/
inductive Phase
  | day | night
  deriving DecidableEq, Repr

/-- One Dur Muhurtam table row: phase, offset in ghatis, duration in ghatis. -/
structure DurSpec where
  phase : Phase
  offset : ℚ
  dur : ℚ
  deriving DecidableEq, Repr

/-- Modelled from the spec: section 6.4, the Dur Muhurtam per-weekday table.
Sun: +26 dur 2; Mon: +16 dur 2 and +22 dur 2; Tue: day +6 dur 2 and
night +14 dur 2; Wed: +14 dur 2; Thu: +10 dur 2 and +22 dur 2; Fri: +6 dur 2
and +22 dur 2; Sat: +0 dur 4. -/
def durTable : Weekday → List DurSpec
  | .sun => [⟨.day, 26, 2⟩]
  | .mon => [⟨.day, 16, 2⟩, ⟨.day, 22, 2⟩]
  | .tue => [⟨.day, 6, 2⟩, ⟨.night, 14, 2⟩]
  | .wed => [⟨.day, 14, 2⟩]
  | .thu => [⟨.day, 10, 2⟩, ⟨.day, 22, 2⟩]
  | .fri => [⟨.day, 6, 2⟩, ⟨.day, 22, 2⟩]
  | .sat => [⟨.day, 0, 4⟩]

/-- Modelled from the spec: the unclipped window of one Dur Muhurtam table
row, anchored at sunrise (day phase) or sunset (night phase). -/
def durWindowRaw (e : EphemerisDay) (s : DurSpec) : TimeWindow :=
  match s.phase with
  | .day =>
      let g := dayGhati e.sunrise e.sunset
      ⟨e.sunrise + s.offset * g, e.sunrise + (s.offset + s.dur) * g⟩
  | .night =>
      let g := nightGhati e.sunset e.nextSunrise
      ⟨e.sunset + s.offset * g, e.sunset + (s.offset + s.dur) * g⟩

/-- Modelled from the spec: clip a window to `[lo, hi)`; the portion falling
outside is discarded (not wrapped), and a window left empty is dropped. -/
def clipWindow (lo hi : ℚ) (w : TimeWindow) : Option TimeWindow :=
  let s := max w.start lo
  let t := min w.stop hi
  if s < t then some ⟨s, t⟩ else none

/-- Modelled from the spec: the Dur Muhurtam windows of the day, clipped to
the sunrise-to-next-sunrise boundary. -/
def durmuhurtam (e : EphemerisDay) (wd : Weekday) : List TimeWindow :=
  (durTable wd).filterMap (fun s => clipWindow e.sunrise e.nextSunrise (durWindowRaw e s))

/-- Width of one nakshatra segment: 13 degrees 20 minutes = 40/3 degrees. -/
def nakWidth : ℚ := 40 / 3

/-- Modelled from the spec: section 6.5.  The Moon's sidereal longitude is
consumed as a monotone function of time; the model uses the unwrapped linear
ephemeris `moonLon m0 rate t = m0 + rate * t` (degrees), with segment `k`
spanning longitudes `[k*nakWidth, (k+1)*nakWidth)`. -/
def moonLon (m0 rate t : ℚ) : ℚ :=
  m0 + rate * t

/-- Index of the (unwrapped) nakshatra segment the Moon occupies at time `t`. -/
def segAt (m0 rate t : ℚ) : ℤ :=
  ⌊moonLon m0 rate t / nakWidth⌋

/-- Modelled from the spec: the nakshatra segments whose span overlaps the
Hindu day `[sunrise, nextSunrise)`. -/
def candidateSegs (m0 rate sunrise nextSunrise : ℚ) : List ℤ :=
  let lo := segAt m0 rate sunrise
  let hi := segAt m0 rate nextSunrise
  (List.range (hi - lo + 1).toNat).map (fun (i : ℕ) => lo + (i : ℤ))

/-- Modelled from the spec: for one candidate segment with thyajya longitude
sub-range `[tb, te)`, solve `moonLon t = tb` and `moonLon t = te` (the exact
limit of the monotone root-finding) and clip the resulting time interval to
the Hindu day; `none` when the thyajya sub-range does not occur in the day. -/
def varjyamSeg (m0 rate sunrise nextSunrise tb te : ℚ) : Option TimeWindow :=
  clipWindow sunrise nextSunrise ⟨(tb - m0) / rate, (te - m0) / rate⟩

/-- Modelled from the spec: Varjyam windows, one per candidate nakshatra
segment whose thyajya sub-range (given by the configuration table
`thyB`/`thyE` as absolute longitudes per segment) occurs within the Hindu
day. -/
def varjyam (m0 rate sunrise nextSunrise : ℚ) (thyB thyE : ℤ → ℚ) : List TimeWindow :=
  (candidateSegs m0 rate sunrise nextSunrise).filterMap
    (fun k => varjyamSeg m0 rate sunrise nextSunrise (thyB k) (thyE k))

/-- The timings block of the engine result (response section `timings`). -/
structure PanchangTimings where
  rahuKalam : TimeWindow
  yamagandam : TimeWindow
  gulikai : TimeWindow
  durmuhurtam : List TimeWindow
  varjyam : List TimeWindow
  brahmaMuhurta : TimeWindow
  abhijitMuhurta : TimeWindow
  deriving DecidableEq, Repr

/-- Modelled from the spec: the Hindu day `[sunrise, nextSunrise)`. -/
def hinduDay (e : EphemerisDay) : TimeWindow :=
  ⟨e.sunrise, e.nextSunrise⟩

/-- Modelled from the spec: assemble all timing windows for one request.
The weekday is the Vara at sunrise; `m0`, `rate`, `thyB`, `thyE` are the
Moon-longitude ephemeris and the thyajya configuration table. -/
def computeTimings (e : EphemerisDay) (wd : Weekday) (m0 rate : ℚ)
    (thyB thyE : ℤ → ℚ) : PanchangTimings where
  rahuKalam := rahuKalam e wd
  yamagandam := yamagandam e wd
  gulikai := gulikai e wd
  durmuhurtam := durmuhurtam e wd
  varjyam := varjyam m0 rate e.sunrise e.nextSunrise thyB thyE
  brahmaMuhurta := brahmaMuhurta e.sunrise
  abhijitMuhurta := abhijitMuhurta e.sunrise e.sunset

/-- Engine failure taxonomy from the spec's error-handling design. -/
inductive EngineError
  | invalidInput
  | astronomicalAnomaly
  | dependencyTimeout
  | configIntegrityError
  deriving DecidableEq, Repr

/-- Modelled from the spec: the engine consumes the ephemeris gateway result;
when the gateway cannot produce sunrise/sunset (`none`, e.g. a polar extreme)
the engine signals `AstronomicalAnomaly` instead of approximating. -/
def computePanchangTimings (eph : Option EphemerisDay) (wd : Weekday)
    (m0 rate : ℚ) (thyB thyE : ℤ → ℚ) : Except EngineError PanchangTimings :=
  match eph with
  | none => .error .astronomicalAnomaly
  | some e => .ok (computeTimings e wd m0 rate thyB thyE)

/-- A window lies within the half-open day `[lo, hi)`: it starts no earlier
than `lo` and ends no later than `hi`. -/
def inDay (lo hi : ℚ) (w : TimeWindow) : Prop :=
  lo ≤ w.start ∧ w.stop ≤ hi

/-! Frontend data model, embedded from `src/frontend/src/types.ts`. -/

/-- `types.ts`: `Language = "en" | "ta" | "hi"`. -/
inductive Language
  | en | ta | hi
  deriving DecidableEq, Repr

/-- `types.ts`: `Methodology = "tamil" | "vedic" | "western"`. -/
inductive Methodology
  | tamil | vedic | western
  deriving DecidableEq, Repr

/-- `types.ts`: `ZodiacSign`; optional fields are `Option String`. -/
structure ZodiacSign where
  code : String
  displayName : String
  english : Option String
  tamil : Option String
  hindi : Option String
  methodology : Methodology
  sequence : Option Int
  deriving DecidableEq, Repr

/-- `types.ts`: `PanchangWindow` (time fields are ISO strings in transit). -/
structure PanchangWindow where
  start : String
  stop : String
  label : Option String
  phase : Option String
  nakshatra : Option String
  kind : Option String
  deriving DecidableEq, Repr

/-- `types.ts`: `PanchangAnga`. -/
structure PanchangAnga where
  name : String
  start : Option String
  stop : Option String
  deriving DecidableEq, Repr

/-- `types.ts`: the `meta` block of `PanchangData`. -/
structure PanchangMeta where
  date : String
  timezone : String
  locationLat : ℚ
  locationLon : ℚ
  locationName : Option String
  hinduDayStart : String
  hinduDayStop : String
  deriving DecidableEq, Repr

/-- `types.ts`: the `astronomy` block of `PanchangData`. -/
structure PanchangAstronomy where
  sunrise : String
  sunset : String
  nextSunrise : String
  dayLengthMinutes : ℚ
  nightLengthMinutes : ℚ
  deriving DecidableEq, Repr

/-- `types.ts`: `PanchangData` (the `panchang` anga lists and `timings`
window lists, plus `notes`). -/
structure PanchangData where
  meta : PanchangMeta
  astronomy : PanchangAstronomy
  varaName : String
  tithi : List PanchangAnga
  nakshatra : List PanchangAnga
  yoga : List PanchangAnga
  karana : List PanchangAnga
  rahuKalam : List PanchangWindow
  yamagandam : List PanchangWindow
  gulikai : List PanchangWindow
  durmuhurtam : List PanchangWindow
  varjyam : List PanchangWindow
  brahmaMuhurta : List PanchangWindow
  abhijitMuhurta : List PanchangWindow
  notes : List (String × String)
  deriving DecidableEq, Repr

/-- The pieces of React state that `loadPanchang` in `App.tsx` touches
(`panchang`, `panchangError`, `panchangLoading`, `lastPanchangKey`). -/
structure PanchangUiState where
  panchang : Option PanchangData
  panchangError : Option String
  panchangLoading : Bool
  lastPanchangKey : Option String
  deriving DecidableEq, Repr

/-- Embedded from `loadPanchang` in `src/frontend/src/App.tsx`
(lines 559-601), with the `override ?? state` resolution of the target
coordinates already applied and the backend call supplied as `fetchResult`.
The second component counts backend requests issued during the call; the
location-label and timezone bookkeeping of the success path touches state
fields outside `PanchangUiState` and is not represented.  When both target
coordinates are zero the function clears the result, sets the error
`"No City Selected"` and returns before any backend request. -/
def loadPanchang (st : PanchangUiState) (date tz : String)
    (targetLat targetLon : ℚ) (fetchResult : Except String PanchangData) :
    PanchangUiState × ℕ :=
  if targetLat = 0 ∧ targetLon = 0 then
    ({ st with panchang := none, panchangError := some "No City Selected" }, 0)
  else
    let key := date ++ "|" ++ toString targetLat ++ "|" ++ toString targetLon ++ "|" ++ tz
    match fetchResult with
    | .ok d =>
        (⟨some d, none, false, some key⟩, 1)
    | .error msg =>
        ({ st with panchangError := some msg
                   panchangLoading := false
                   lastPanchangKey := some key }, 1)

/-! Embedding of `src/frontend/src/guidanceHelper.ts`.  The untyped `raw`
payload is modelled by `JsVal`; JavaScript `undefined` and `null` are both
modelled by `JsVal.null` (member access on either throws, and both are falsy
and absent in the same way at every use site of this file). -/

/-- A JavaScript/JSON value as received by the guidance parsers. -/
inductive JsVal
  | null
  | bool (b : Bool)
  | num (q : ℚ)
  | str (s : String)
  | arr (xs : List JsVal)
  | obj (fields : List (String × JsVal))
  deriving Repr

/-- Property access `v.k` where `v` is known non-null (JS returns `undefined`,
modelled as `.null`, for non-objects and missing keys). -/
def JsVal.getField : JsVal → String → JsVal
  | .obj fs, k => ((fs.lookup k).getD .null)
  | _, _ => .null

/-- `Array.isArray(v) ? v : []`. -/
def JsVal.asArray : JsVal → List JsVal
  | .arr xs => xs
  | _ => []

/-- JavaScript truthiness. -/
def jsTruthy : JsVal → Bool
  | .null => false
  | .bool b => b
  | .num q => q ≠ 0
  | .str s => s ≠ ""
  | .arr _ => true
  | .obj _ => true

/-- JavaScript `a || b`. -/
def jsOr (a b : JsVal) : JsVal :=
  if jsTruthy a then a else b

/-- JavaScript `String(v)` (arrays join their elements with commas, plain
objects print `[object Object]`; numbers are printed as rationals, which
coincides with JS for the integral values that occur). -/
def jsToString : JsVal → String
  | .null => "null"
  | .bool true => "true"
  | .bool false => "false"
  | .num q => toString q
  | .str s => s
  | .arr xs => String.intercalate "," (xs.attach.map (fun x => jsToString x.1))
  | .obj _ => "[object Object]"
  decreasing_by
    have h := List.sizeOf_lt_of_mem x.2
    simp only [JsVal.arr.sizeOf_spec]
    omega

/-- `guidanceHelper.ts` line 11: `normalize = s.trim().toLowerCase()`,
written structurally over the character list (drop surrounding whitespace,
then lowercase each character). -/
def normalize (s : String) : String :=
  String.mk
    (((s.data.dropWhile Char.isWhitespace).reverse.dropWhile
        Char.isWhitespace).reverse.map Char.toLower)

/-- `guidanceHelper.ts` lines 5-9: `LANG_MAP`. -/
def langName : Language → String
  | .en => "English"
  | .ta => "Tamil"
  | .hi => "Hindi"

/-- `guidanceHelper.ts` lines 15-24: `pickPredictionText`.  Returns the
(always truthy) picked text value, or `none` where the source returns
`null`. -/
def pickPredictionText (v : JsVal) : Option JsVal :=
  match v with
  | .arr ps =>
      let general := ps.find? (fun p =>
        match p.getField "category" with
        | .str c => normalize c = "general"
        | _ => false)
      match general <|> ps.head? with
      | none => none
      | some pick =>
          let t := jsOr (pick.getField "summary") (pick.getField "prediction")
          if jsTruthy t then some t else none
  | _ => none

/-- `guidanceHelper.ts` lines 30-35: the `for (const frame of frames)` loop of
`extractTextFromPrediction`.  `frame.predictions` is accessed without an
optional chain, so a `null` frame throws a `TypeError`. -/
def framesLoop : List JsVal → Except String (Option JsVal)
  | [] => .ok none
  | f :: rest =>
      match f with
      | .null => .error "TypeError: cannot read properties of null"
      | _ =>
          match pickPredictionText (f.getField "predictions") with
          | some t => .ok (some t)
          | none => framesLoop rest

/-- `guidanceHelper.ts` lines 26-36: `extractTextFromPrediction`. -/
def extractTextFromPrediction (pred : JsVal) : Except String (Option JsVal) :=
  match pickPredictionText (pred.getField "predictions") with
  | some t => .ok (some t)
  | none => framesLoop (pred.getField "timeFrames").asArray

/-- JavaScript object-key assignment `m[k] = v` on an insertion-ordered
object: an existing key keeps its position and takes the new value, a new
key is appended. -/
def mapSet (m : List (String × JsVal)) (k : String) (v : JsVal) :
    List (String × JsVal) :=
  if m.any (fun p => p.1 = k) then
    m.map (fun p => if p.1 = k then (k, v) else p)
  else
    m ++ [(k, v)]

/-- `guidanceHelper.ts` lines 74-80 (and 105-109): the candidate name list of
a sign, `[code, displayName, english, tamil, hindi].filter(Boolean)`
normalized (`filter(Boolean)` also drops empty strings). -/
def candidateNames (s : ZodiacSign) : List String :=
  (([some s.code, some s.displayName, s.english, s.tamil, s.hindi].filterMap id).filter
    (fun v => v ≠ "")).map normalize

/-- `guidanceHelper.ts` lines 73-82: does sign `s` match the prediction's
`zodiacSign` name case-insensitively? -/
def signMatches (name : String) (s : ZodiacSign) : Bool :=
  (candidateNames s).contains (normalize name)

/-- `guidanceHelper.ts` lines 67-86: the `for (const pred of preds)` loop of
`parseGuidanceRaw`, threading the accumulated sign map. -/
def parseLoop (signs : List ZodiacSign) :
    List JsVal → List (String × JsVal) → Except String (List (String × JsVal))
  | [], acc => .ok acc
  | p :: rest, acc =>
      let name :=
        match p.getField "zodiacSign" with
        | .str s => s
        | _ => ""
      if name = "" then parseLoop signs rest acc
      else
        match extractTextFromPrediction p with
        | .error e => .error e
        | .ok textOpt =>
            let text := textOpt.getD (.str "No guidance returned.")
            let code :=
              match signs.find? (signMatches name) with
              | some s => s.code
              | none => name
            parseLoop signs rest (mapSet acc code text)

/-- `guidanceHelper.ts` lines 60-61 (and 99-100): the `languageBlocks.find`
step shared by both parsers, selecting the block whose `language` field
strictly equals the English name of the requested language. -/
def languageBlockFor (raw : JsVal) (language : Language) : Option JsVal :=
  (raw.getField "languageBlocks").asArray.find? (fun b =>
    match b.getField "language" with
    | .str s => s = langName language
    | _ => false)

/-- `guidanceHelper.ts` lines 53-89: `parseGuidanceRaw`.  The result is the
insertion-ordered sign-code map, or a thrown `TypeError` (`Except.error`). -/
def parseGuidanceRaw (raw : JsVal) (language : Language)
    (signs : List ZodiacSign) : Except String (List (String × JsVal)) :=
  match raw with
  | .obj _ | .arr _ =>
      match languageBlockFor raw language with
      | none => .ok []
      | some block =>
          parseLoop signs (block.getField "zodiacPredictions").asArray []
  | _ => .ok []

/-- The prediction objects `parseGuidanceRaw` iterates over for a payload. -/
def predsOf (raw : JsVal) (language : Language) : List JsVal :=
  match languageBlockFor raw language with
  | some block => (block.getField "zodiacPredictions").asArray
  | none => []

/-- Key provenance in the parsed guidance map: the key is derived from the
`zodiacSign` string of some prediction in the payload, either as the code of
the first sign whose candidate names contain the normalized name, or as the
raw name itself when no sign matches. -/
def keyFromPreds (signs : List ZodiacSign) (preds : List JsVal) (k : String) : Prop :=
  ∃ p ∈ preds, ∃ nm : String,
    p.getField "zodiacSign" = .str nm ∧ nm ≠ "" ∧
    ((∃ s, signs.find? (signMatches nm) = some s ∧ k = s.code) ∨
     (signs.find? (signMatches nm) = none ∧ k = nm))

/-- `guidanceHelper.ts` lines 42-45: `SignCategory` (the pushed `text` is the
raw truthy value). -/
structure SignCategory where
  category : String
  text : JsVal
  deriving Repr

/-- `guidanceHelper.ts` lines 47-51: `SignTimeBlock`. -/
structure SignTimeBlock where
  label : Option JsVal
  basis : Option String
  categories : List SignCategory
  deriving Repr

/-- `guidanceHelper.ts` lines 116-125: `pushBlock`'s category collection. -/
def collectCategories (items : List JsVal) : List SignCategory :=
  items.filterMap (fun item =>
    if jsTruthy item then
      let category :=
        match item.getField "category" with
        | .str c => c
        | _ => "General"
      let text := jsOr (item.getField "summary") (item.getField "prediction")
      if jsTruthy text then some ⟨category, text⟩ else none
    else none)

/-- `guidanceHelper.ts` lines 127-136: one `timeFrames` iteration, yielding
the pushed block if its category list is non-empty. -/
def frameBlock (frame : JsVal) : Option SignTimeBlock :=
  match frame.getField "predictions" with
  | .arr items =>
      let startD := frame.getField "startDate"
      let endD := frame.getField "endDate"
      let label :=
        if jsTruthy startD ∧ jsTruthy endD then
          some (.str (jsToString startD ++ " - " ++ jsToString endD))
        else
          let v := jsOr startD endD
          if jsTruthy v then some v else none
      let basis :=
        match frame.getField "basis" with
        | .str b => some b
        | _ => none
      let cats := collectCategories items
      if cats.isEmpty then none else some ⟨label, basis, cats⟩
  | _ => none

/-- `guidanceHelper.ts` lines 91-142: `getSignBlocks` (total: every property
access in it is guarded, so it never throws). -/
def getSignBlocks (raw : JsVal) (language : Language)
    (signs : List ZodiacSign) (signCode : String) : List SignTimeBlock :=
  match raw with
  | .obj _ | .arr _ =>
      match languageBlockFor raw language with
      | none => []
      | some block =>
          let preds := (block.getField "zodiacPredictions").asArray
          let candidates :=
            match signs.find? (fun s => s.code = signCode) with
            | some m => candidateNames m
            | none => [normalize signCode]
          match preds.find? (fun p =>
            candidates.contains
              (normalize (jsToString (jsOr (p.getField "zodiacSign") (.str ""))))) with
          | none => []
          | some pred =>
              if jsTruthy pred then
                match pred.getField "timeFrames" with
                | .arr (f :: fs) => (f :: fs).filterMap frameBlock
                | _ =>
                    match pred.getField "predictions" with
                    | .arr items =>
                        let cats := collectCategories items
                        if cats.isEmpty then [] else [⟨none, none, cats⟩]
                    | _ => []
              else []
  | _ => []

/-- A well-formed guidance payload: one English block with one prediction for
"Aries" carrying a General summary. -/
def sampleGuidanceRaw : JsVal :=
  .obj [("languageBlocks", .arr [.obj
    [("language", .str "English"),
     ("zodiacPredictions", .arr [.obj
       [("zodiacSign", .str "Aries"),
        ("predictions", .arr [.obj
          [("category", .str "General"),
           ("summary", .str "Good day")]])]])]])]

/-- A guidance payload whose matched prediction has no direct predictions
text and a `timeFrames` array containing `null`: the unguarded
`frame.predictions` access in `extractTextFromPrediction` throws on it. -/
def brokenGuidanceRaw : JsVal :=
  .obj [("languageBlocks", .arr [.obj
    [("language", .str "English"),
     ("zodiacPredictions", .arr [.obj
       [("zodiacSign", .str "Aries"),
        ("timeFrames", .arr [.null])]])]])]

/-! Embedding of the cell-layout core of `renderSouthIndianChart`
(`App.tsx` variant in the unnamed sources, lines 482-583).  The JSX markup
around the computed `cells` array is presentation only and not modelled. -/

/-- One chart cell `{ label, bodies }`. -/
structure Cell where
  label : String
  bodies : String
  deriving DecidableEq, Repr

/-- `Map.set` on an insertion-ordered map: an existing key keeps its position
and takes the new value, a new key is appended. -/
def mapSetCell (m : List (String × Cell)) (k : String) (v : Cell) :
    List (String × Cell) :=
  if m.any (fun p => p.1 = k) then
    m.map (fun p => if p.1 = k then (k, v) else p)
  else
    m ++ [(k, v)]

/-- `renderSouthIndianChart` lines 484-488: the label map over the flattened
chart, keyed by the normalized label and holding the raw label and bodies. -/
def labelMapOf (chart : List (List Cell)) : List (String × Cell) :=
  chart.flatten.foldl (fun m c => mapSetCell m (normalize c.label) ⟨c.label, c.bodies⟩) []

/-- `renderSouthIndianChart` lines 490-503: the rasi alias table (the
non-ASCII Tamil/Hindi entries appear in the source as runs of question
marks and are kept verbatim). -/
def aliases (k : String) : List String :=
  match k with
  | "Meena" => ["Meena", "Meenam", "Pisces", "?????", "???"]
  | "Mesha" => ["Mesha", "Mesham", "Aries", "?????", "???"]
  | "Vrishabha" => ["Vrishabha", "Rishabha", "Rishabam", "Taurus", "??????", "????"]
  | "Mithuna" => ["Mithuna", "Mithunam", "Gemini", "???????", "?????"]
  | "Karka" => ["Karka", "Karkata", "Cancer", "?????", "???", "????"]
  | "Simha" => ["Simha", "Simmam", "Leo", "???????", "????"]
  | "Kanya" => ["Kanya", "Kanni", "Virgo", "?????", "?????"]
  | "Tula" => ["Tula", "Thula", "Libra", "??????", "????"]
  | "Vrishchika" => ["Vrishchika", "Vrichika", "Scorpio", "???????????", "???????"]
  | "Dhanu" => ["Dhanu", "Dhanus", "Sagittarius", "?????", "???"]
  | "Makara" => ["Makara", "Makaram", "Capricorn", "?????", "???"]
  | "Kumbha" => ["Kumbha", "Kumbam", "Aquarius", "???????", "?????"]
  | _ => [k]

/-- JavaScript `a || b` on strings (empty string is falsy). -/
def jsOrStr (a b : String) : String :=
  if a = "" then b else a

/-- JavaScript `hay.includes(needle)`. -/
def strIncludes (hay needle : String) : Bool :=
  let h := hay.toList
  let n := needle.toList
  (List.range (h.length + 1)).any (fun i => n.isPrefixOf (h.drop i))

/-- `findCell` lines 507-510: the exact alias lookup pass. -/
def findCellExact (m : List (String × Cell)) : List String → Option Cell
  | [] => none
  | a :: rest =>
      match m.lookup (normalize a) with
      | some c => some ⟨jsOrStr c.label a, c.bodies⟩
      | none => findCellExact m rest

/-- `findCell` lines 511-517: the substring fallback pass over the label map
entries in insertion order. -/
def findCellSub (aliasList : List String) : List (String × Cell) → Option Cell
  | [] => none
  | (norm, c) :: rest =>
      if aliasList.any (fun a => strIncludes norm (normalize a)) then
        some ⟨jsOrStr c.label (aliasList.headD ""), c.bodies⟩
      else
        findCellSub aliasList rest

/-- `findCell` lines 505-519: exact pass, then substring pass, then the
default cell carrying the canonical alias name and empty bodies. -/
def findCell (m : List (String × Cell)) (keyName : String) : Cell :=
  let aliasList := aliases keyName
  match findCellExact m aliasList with
  | some c => c
  | none =>
      match findCellSub aliasList m with
      | some c => c
      | none => ⟨aliasList.headD keyName, ""⟩

/-- `renderSouthIndianChart` lines 523-536: the fixed rasi positions in the
4x4 grid, Meena in the top-left corner and the rest clockwise around the
frame. -/
def positions : List (ℕ × String) :=
  [(0, "Meena"), (1, "Mesha"), (2, "Vrishabha"), (3, "Mithuna"),
   (7, "Karka"), (11, "Simha"), (15, "Kanya"), (14, "Tula"),
   (13, "Vrishchika"), (12, "Dhanu"), (8, "Makara"), (4, "Kumbha")]

/-- `renderSouthIndianChart` lines 521-541: the 16-cell array, `none` for the
four inner cells and a populated cell at each rasi position. -/
def southIndianCells (chart : List (List Cell)) : List (Option Cell) :=
  let lm := labelMapOf chart
  positions.foldl (fun cells p => cells.set p.1 (some (findCell lm p.2)))
    (List.replicate 16 none)

/-! Helper lemmas shared by the claims. -/

/-- `filterMap` collapses to `map` when the function succeeds everywhere. -/
theorem filterMap_eq_map_of_forall_some {α β : Type} (f : α → Option β) (g : α → β) :
    ∀ l : List α, (∀ a ∈ l, f a = some (g a)) → l.filterMap f = l.map g
  | [], _ => rfl
  | a :: l, h => by
    rw [List.filterMap_cons, h a (List.mem_cons_self a l), List.map_cons,
      filterMap_eq_map_of_forall_some f g l (fun b hb => h b (List.mem_cons_of_mem a hb))]

/-- A window surviving `clipWindow lo hi` is non-empty and lies in `[lo, hi)`. -/
theorem clipWindow_sound {lo hi : ℚ} {w w' : TimeWindow}
    (h : clipWindow lo hi w = some w') :
    lo ≤ w'.start ∧ w'.start < w'.stop ∧ w'.stop ≤ hi := by
  simp only [clipWindow] at h
  split at h
  case isTrue hlt =>
    cases h
    exact ⟨le_max_right _ _, hlt, min_le_right _ _⟩
  case isFalse => cases h

/-- `clipWindow` over the full day is the identity on a Dur Muhurtam table
window: with `0 ≤ offset`, `0 < dur` and `offset + dur ≤ 30`, no portion of
the raw window falls outside `[sunrise, nextSunrise)`. -/
theorem clipWindow_durWindowRaw (e : EphemerisDay) (h1 : e.sunrise < e.sunset)
    (h2 : e.sunset < e.nextSunrise) (s : DurSpec) (hoff : 0 ≤ s.offset)
    (hdur : 0 < s.dur) (hsum : s.offset + s.dur ≤ 30) :
    clipWindow e.sunrise e.nextSunrise (durWindowRaw e s) =
      some (durWindowRaw e s) := by
  obtain ⟨ph, off, dur⟩ := s
  simp only at hoff hdur hsum
  cases ph
  case day =>
    have hg : 0 < (e.sunset - e.sunrise) / 30 := by
      apply div_pos <;> linarith
    have ha : e.sunrise ≤ e.sunrise + off * ((e.sunset - e.sunrise) / 30) := by
      nlinarith
    have hb : e.sunrise + (off + dur) * ((e.sunset - e.sunrise) / 30) ≤
        e.nextSunrise := by nlinarith
    have hc : e.sunrise + off * ((e.sunset - e.sunrise) / 30) <
        e.sunrise + (off + dur) * ((e.sunset - e.sunrise) / 30) := by nlinarith
    simp only [durWindowRaw, dayGhati, clipWindow]
    rw [max_eq_left ha, min_eq_left hb, if_pos hc]
  case night =>
    have hg : 0 < (e.nextSunrise - e.sunset) / 30 := by
      apply div_pos <;> linarith
    have ha : e.sunrise ≤ e.sunset + off * ((e.nextSunrise - e.sunset) / 30) := by
      nlinarith
    have hb : e.sunset + (off + dur) * ((e.nextSunrise - e.sunset) / 30) ≤
        e.nextSunrise := by nlinarith
    have hc : e.sunset + off * ((e.nextSunrise - e.sunset) / 30) <
        e.sunset + (off + dur) * ((e.nextSunrise - e.sunset) / 30) := by nlinarith
    simp only [durWindowRaw, nightGhati, clipWindow]
    rw [max_eq_left ha, min_eq_left hb, if_pos hc]

/-- A kala segment with index in `[1, 8]` lies within daytime. -/
theorem kalaSegment_bounds {sunrise sunset : ℚ} (h : sunrise < sunset) {idx : ℕ}
    (hge : 1 ≤ idx) (hle : idx ≤ 8) :
    sunrise ≤ (kalaSegment sunrise sunset idx).start ∧
    (kalaSegment sunrise sunset idx).stop ≤ sunset := by
  have h1 : (1 : ℚ) ≤ (idx : ℚ) := by exact_mod_cast hge
  have h8 : ((idx : ℚ)) ≤ 8 := by exact_mod_cast hle
  have hD : 0 < (sunset - sunrise) / 8 := by
    apply div_pos <;> linarith
  constructor
  · simp only [kalaSegment]
    nlinarith
  · simp only [kalaSegment]
    nlinarith

/-- Every value in the three kala weekday tables is a segment index in
`[1, 8]`. -/
theorem kalaIdx_range (wd : Weekday) :
    (1 ≤ rahuIdx wd ∧ rahuIdx wd ≤ 8) ∧
    (1 ≤ yamaIdx wd ∧ yamaIdx wd ≤ 8) ∧
    (1 ≤ gulikaiIdx wd ∧ gulikaiIdx wd ≤ 8) := by
  cases wd <;> simp [rahuIdx, yamaIdx, gulikaiIdx]

/-- Shape of a window surviving `clipWindow`. -/
theorem clipWindow_eq {lo hi : ℚ} {w w' : TimeWindow}
    (h : clipWindow lo hi w = some w') :
    w' = ⟨max w.start lo, min w.stop hi⟩ ∧ max w.start lo < min w.stop hi := by
  simp only [clipWindow] at h
  split at h
  case isTrue hlt =>
    cases h
    exact ⟨rfl, hlt⟩
  case isFalse => cases h

/-- When the day overlaps at most two nakshatra segments, there are at most
two candidate segments. -/
theorem length_candidateSegs (m0 rate sunrise nextSunrise : ℚ)
    (hspan : segAt m0 rate nextSunrise ≤ segAt m0 rate sunrise + 1) :
    (candidateSegs m0 rate sunrise nextSunrise).length ≤ 2 := by
  unfold candidateSegs
  rw [List.length_map, List.length_range]
  omega

/-- `mapSet` adds at most the written key to the key set. -/
theorem mem_keys_mapSet {m : List (String × JsVal)} {k : String} {v : JsVal}
    {x : String} (h : x ∈ (mapSet m k v).map Prod.fst) :
    x ∈ m.map Prod.fst ∨ x = k := by
  unfold mapSet at h
  split at h
  · left
    have hkeys : (m.map (fun p => if p.1 = k then (k, v) else p)).map Prod.fst =
        m.map Prod.fst := by
      rw [List.map_map]
      apply List.map_congr_left
      intro p _
      by_cases hp : p.1 = k
      · simp [hp]
      · simp [hp]
    rwa [hkeys] at h
  · rw [List.map_append] at h
    rcases List.mem_append.mp h with h | h
    · exact Or.inl h
    · right
      simpa using h

/-- Every key produced by the `parseGuidanceRaw` loop either was already in
the accumulator or is derived from the `zodiacSign` of one of the remaining
predictions. -/
theorem parseLoop_keys (signs : List ZodiacSign) :
    ∀ (preds : List JsVal) (acc m : List (String × JsVal)),
      parseLoop signs preds acc = .ok m →
      ∀ x ∈ m.map Prod.fst, x ∈ acc.map Prod.fst ∨ keyFromPreds signs preds x := by
  intro preds
  induction preds with
  | nil =>
      intro acc m h x hx
      simp only [parseLoop] at h
      cases h
      exact Or.inl hx
  | cons p rest ih =>
      intro acc m h x hx
      have hlift : ∀ y, keyFromPreds signs rest y → keyFromPreds signs (p :: rest) y := by
        rintro y ⟨q, hq, hrest⟩
        exact ⟨q, List.mem_cons_of_mem p hq, hrest⟩
      rcases hg : p.getField "zodiacSign" with _ | b | q | s | xs | fs
      case null =>
        simp only [parseLoop, hg, if_pos] at h
        exact (ih acc m h x hx).imp_right (hlift x)
      case bool =>
        simp only [parseLoop, hg, if_pos] at h
        exact (ih acc m h x hx).imp_right (hlift x)
      case num =>
        simp only [parseLoop, hg, if_pos] at h
        exact (ih acc m h x hx).imp_right (hlift x)
      case arr =>
        simp only [parseLoop, hg, if_pos] at h
        exact (ih acc m h x hx).imp_right (hlift x)
      case obj =>
        simp only [parseLoop, hg, if_pos] at h
        exact (ih acc m h x hx).imp_right (hlift x)
      case str =>
        by_cases hs : s = ""
        · simp only [parseLoop, hg, hs, if_pos] at h
          exact (ih acc m h x hx).imp_right (hlift x)
        · simp only [parseLoop, hg] at h
          rw [if_neg hs] at h
          cases he : extractTextFromPrediction p with
          | error e =>
              rw [he] at h
              cases h
          | ok textOpt =>
              rw [he] at h
              rcases ih _ m h x hx with hacc | hk
              · rcases mem_keys_mapSet hacc with h1 | h2
                · exact Or.inl h1
                · right
                  refine ⟨p, List.mem_cons_self p rest, s, hg, hs, ?_⟩
                  rcases hf : signs.find? (signMatches s) with _ | s'
                  · right
                    rw [hf] at h2
                    exact ⟨rfl, h2⟩
                  · left
                    rw [hf] at h2
                    exact ⟨s', rfl, h2⟩
              · exact Or.inr (hlift x hk)

/-! Claims. -/

/-- C1: each of Rahu Kalam, Yamagandam and Gulikai Kalam is exactly the
interval `[sunrise + (idx-1)*D/8, sunrise + idx*D/8)` with `D = sunset -
sunrise` and `idx` from the fixed weekday tables (Sun..Sat: Rahu 8,2,7,5,6,4,3;
Yamagandam 5,4,3,2,1,7,6; Gulikai 7,6,5,4,3,2,1), the weekday being the Vara
at sunrise; each window's duration is exactly `D/8` for all seven weekdays,
and for sunrise 07:00 (420 min), sunset 18:00 (1080 min) on a Wednesday,
Gulikai equals `[11:07:30, 12:30:00)` (minutes 1335/2 to 750). -/
theorem kala_windows_spec :
    (∀ (e : EphemerisDay) (wd : Weekday),
      rahuKalam e wd =
        ⟨e.sunrise + ((rahuIdx wd : ℚ) - 1) * ((e.sunset - e.sunrise) / 8),
         e.sunrise + (rahuIdx wd : ℚ) * ((e.sunset - e.sunrise) / 8)⟩ ∧
      yamagandam e wd =
        ⟨e.sunrise + ((yamaIdx wd : ℚ) - 1) * ((e.sunset - e.sunrise) / 8),
         e.sunrise + (yamaIdx wd : ℚ) * ((e.sunset - e.sunrise) / 8)⟩ ∧
      gulikai e wd =
        ⟨e.sunrise + ((gulikaiIdx wd : ℚ) - 1) * ((e.sunset - e.sunrise) / 8),
         e.sunrise + (gulikaiIdx wd : ℚ) * ((e.sunset - e.sunrise) / 8)⟩ ∧
      (rahuKalam e wd).stop - (rahuKalam e wd).start = (e.sunset - e.sunrise) / 8 ∧
      (yamagandam e wd).stop - (yamagandam e wd).start = (e.sunset - e.sunrise) / 8 ∧
      (gulikai e wd).stop - (gulikai e wd).start = (e.sunset - e.sunrise) / 8) ∧
    ([Weekday.sun, .mon, .tue, .wed, .thu, .fri, .sat].map rahuIdx = [8, 2, 7, 5, 6, 4, 3] ∧
     [Weekday.sun, .mon, .tue, .wed, .thu, .fri, .sat].map yamaIdx = [5, 4, 3, 2, 1, 7, 6] ∧
     [Weekday.sun, .mon, .tue, .wed, .thu, .fri, .sat].map gulikaiIdx = [7, 6, 5, 4, 3, 2, 1]) ∧
    gulikai ⟨420, 1080, 1860⟩ .wed = ⟨1335 / 2, 750⟩ := by
  refine ⟨fun e wd => ⟨rfl, rfl, rfl, ?_, ?_, ?_⟩, ⟨rfl, rfl, rfl⟩, ?_⟩
  · simp only [rahuKalam, kalaSegment]; ring
  · simp only [yamagandam, kalaSegment]; ring
  · simp only [gulikai, kalaSegment]; ring
  · simp only [gulikai, kalaSegment, gulikaiIdx]
    norm_num

/-- C4: Abhijit Muhurta equals `[LNT - half, LNT + half)` with `LNT` the local
apparent noon and `half = (sunset - sunrise)/30`, hence it is symmetric around
local noon: `LNT - start = stop - LNT`. -/
theorem abhijit_symmetry (sunrise sunset : ℚ) :
    abhijitMuhurta sunrise sunset =
      ⟨localNoon sunrise sunset - (sunset - sunrise) / 30,
       localNoon sunrise sunset + (sunset - sunrise) / 30⟩ ∧
    localNoon sunrise sunset - (abhijitMuhurta sunrise sunset).start =
      (abhijitMuhurta sunrise sunset).stop - localNoon sunrise sunset := by
  constructor
  · rfl
  · simp only [abhijitMuhurta, localNoon]
    ring

/-- C7: the engine signals `AstronomicalAnomaly` when the ephemeris cannot
produce sunrise/sunset, and `loadPanchang` invoked with latitude 0 and
longitude 0 clears the panchang result, sets the error `"No City Selected"`
and returns without issuing any backend request. -/
theorem refusal_on_missing_inputs :
    (∀ (wd : Weekday) (m0 rate : ℚ) (thyB thyE : ℤ → ℚ),
      computePanchangTimings none wd m0 rate thyB thyE =
        .error .astronomicalAnomaly) ∧
    (∀ (st : PanchangUiState) (date tz : String)
        (fetchResult : Except String PanchangData),
      (loadPanchang st date tz 0 0 fetchResult).1.panchang = none ∧
      (loadPanchang st date tz 0 0 fetchResult).1.panchangError =
        some "No City Selected" ∧
      (loadPanchang st date tz 0 0 fetchResult).2 = 0) := by
  refine ⟨fun _ _ _ _ _ => rfl, fun st date tz fetchResult => ?_⟩
  simp [loadPanchang]

/-- C8: the engine and the guidance parser are pure functions of their inputs
(in this embedding there is no hidden state by construction), so two
evaluations with identical inputs yield identical output. -/
theorem engine_deterministic
    (eph : Option EphemerisDay) (wd : Weekday) (m0 rate : ℚ)
    (thyB thyE : ℤ → ℚ) (raw : JsVal) (language : Language)
    (signs : List ZodiacSign) :
    computePanchangTimings eph wd m0 rate thyB thyE =
      computePanchangTimings eph wd m0 rate thyB thyE ∧
    parseGuidanceRaw raw language signs = parseGuidanceRaw raw language signs :=
  ⟨rfl, rfl⟩

/-- C2: for a valid day (`sunrise < sunset < nextSunrise`) the Hindu day
satisfies `end > start`, every window among Rahu Kalam, Yamagandam, Gulikai,
Dur Muhurtam, Varjyam and Abhijit Muhurta lies within
`[hinduDay.start, hinduDay.end)`, and Brahma Muhurta is the one window that
starts before `hinduDay.start`. -/
theorem hindu_day_containment (e : EphemerisDay) (wd : Weekday) (m0 rate : ℚ)
    (thyB thyE : ℤ → ℚ) (h1 : e.sunrise < e.sunset)
    (h2 : e.sunset < e.nextSunrise) :
    (hinduDay e).start < (hinduDay e).stop ∧
    inDay (hinduDay e).start (hinduDay e).stop
      (computeTimings e wd m0 rate thyB thyE).rahuKalam ∧
    inDay (hinduDay e).start (hinduDay e).stop
      (computeTimings e wd m0 rate thyB thyE).yamagandam ∧
    inDay (hinduDay e).start (hinduDay e).stop
      (computeTimings e wd m0 rate thyB thyE).gulikai ∧
    inDay (hinduDay e).start (hinduDay e).stop
      (computeTimings e wd m0 rate thyB thyE).abhijitMuhurta ∧
    (∀ w ∈ (computeTimings e wd m0 rate thyB thyE).durmuhurtam,
      inDay (hinduDay e).start (hinduDay e).stop w) ∧
    (∀ w ∈ (computeTimings e wd m0 rate thyB thyE).varjyam,
      inDay (hinduDay e).start (hinduDay e).stop w) ∧
    (computeTimings e wd m0 rate thyB thyE).brahmaMuhurta.start <
      (hinduDay e).start := by
  obtain ⟨hr, hy, hg⟩ := kalaIdx_range wd
  have hday : (hinduDay e).start = e.sunrise ∧ (hinduDay e).stop = e.nextSunrise :=
    ⟨rfl, rfl⟩
  refine ⟨by simpa [hinduDay] using lt_trans h1 h2, ?_, ?_, ?_, ?_, ?_, ?_, ?_⟩
  · obtain ⟨ha, hb⟩ := kalaSegment_bounds h1 hr.1 hr.2
    exact ⟨ha, le_trans hb (le_of_lt h2)⟩
  · obtain ⟨ha, hb⟩ := kalaSegment_bounds h1 hy.1 hy.2
    exact ⟨ha, le_trans hb (le_of_lt h2)⟩
  · obtain ⟨ha, hb⟩ := kalaSegment_bounds h1 hg.1 hg.2
    exact ⟨ha, le_trans hb (le_of_lt h2)⟩
  · constructor
    · show e.sunrise ≤ (abhijitMuhurta e.sunrise e.sunset).start
      simp only [abhijitMuhurta]
      nlinarith
    · show (abhijitMuhurta e.sunrise e.sunset).stop ≤ e.nextSunrise
      simp only [abhijitMuhurta]
      nlinarith
  · intro w hw
    obtain ⟨s, _, hc⟩ := List.mem_filterMap.mp hw
    have hs := clipWindow_sound hc
    exact ⟨hs.1, hs.2.2⟩
  · intro w hw
    obtain ⟨k, _, hc⟩ := List.mem_filterMap.mp hw
    have hs := clipWindow_sound hc
    exact ⟨hs.1, hs.2.2⟩
  · show (brahmaMuhurta e.sunrise).start < e.sunrise
    simp [brahmaMuhurta]

/-- C2 witness: the containment theorem at the concrete valid day with
sunrise 07:00, sunset 18:00, next sunrise 07:00 the next day, on a Wednesday,
with a unit Moon ephemeris and a trivial thyajya table. -/
theorem hindu_day_containment_witness :
    (hinduDay ⟨420, 1080, 1860⟩).start < (hinduDay ⟨420, 1080, 1860⟩).stop ∧
    inDay (hinduDay ⟨420, 1080, 1860⟩).start (hinduDay ⟨420, 1080, 1860⟩).stop
      (computeTimings ⟨420, 1080, 1860⟩ .wed 0 1 (fun _ => 0) (fun _ => 0)).rahuKalam ∧
    inDay (hinduDay ⟨420, 1080, 1860⟩).start (hinduDay ⟨420, 1080, 1860⟩).stop
      (computeTimings ⟨420, 1080, 1860⟩ .wed 0 1 (fun _ => 0) (fun _ => 0)).yamagandam ∧
    inDay (hinduDay ⟨420, 1080, 1860⟩).start (hinduDay ⟨420, 1080, 1860⟩).stop
      (computeTimings ⟨420, 1080, 1860⟩ .wed 0 1 (fun _ => 0) (fun _ => 0)).gulikai ∧
    inDay (hinduDay ⟨420, 1080, 1860⟩).start (hinduDay ⟨420, 1080, 1860⟩).stop
      (computeTimings ⟨420, 1080, 1860⟩ .wed 0 1 (fun _ => 0) (fun _ => 0)).abhijitMuhurta ∧
    (∀ w ∈ (computeTimings ⟨420, 1080, 1860⟩ .wed 0 1 (fun _ => 0) (fun _ => 0)).durmuhurtam,
      inDay (hinduDay ⟨420, 1080, 1860⟩).start (hinduDay ⟨420, 1080, 1860⟩).stop w) ∧
    (∀ w ∈ (computeTimings ⟨420, 1080, 1860⟩ .wed 0 1 (fun _ => 0) (fun _ => 0)).varjyam,
      inDay (hinduDay ⟨420, 1080, 1860⟩).start (hinduDay ⟨420, 1080, 1860⟩).stop w) ∧
    (computeTimings ⟨420, 1080, 1860⟩ .wed 0 1 (fun _ => 0) (fun _ => 0)).brahmaMuhurta.start <
      (hinduDay ⟨420, 1080, 1860⟩).start :=
  hindu_day_containment ⟨420, 1080, 1860⟩ .wed 0 1 (fun _ => 0) (fun _ => 0)
    (by norm_num) (by norm_num)

/-- C3: the Dur Muhurtam windows are exactly the per-weekday table windows
(day offsets in Day Ghatis from sunrise, night offsets in Night Ghatis from
sunset), and the clipping pass to `[sunrise, nextSunrise)` discards nothing
for a valid day: every resulting window is non-empty and lies within the
Hindu day. -/
theorem durmuhurtam_weekday_table (e : EphemerisDay) (h1 : e.sunrise < e.sunset)
    (h2 : e.sunset < e.nextSunrise) (wd : Weekday) :
    durmuhurtam e wd = (durTable wd).map (durWindowRaw e) ∧
    ∀ w ∈ durmuhurtam e wd,
      e.sunrise ≤ w.start ∧ w.start < w.stop ∧ w.stop ≤ e.nextSunrise := by
  have hall : ∀ s ∈ durTable wd, 0 ≤ s.offset ∧ 0 < s.dur ∧ s.offset + s.dur ≤ 30 := by
    cases wd <;> intro s hs <;> simp only [durTable, List.mem_cons,
      List.mem_singleton, List.not_mem_nil, or_false] at hs <;>
      first
        | (rw [hs]; refine ⟨by norm_num, by norm_num, by norm_num⟩)
        | (rcases hs with hs | hs <;> rw [hs] <;>
            refine ⟨by norm_num, by norm_num, by norm_num⟩)
  constructor
  · exact filterMap_eq_map_of_forall_some _ _ _
      (fun s hs => clipWindow_durWindowRaw e h1 h2 s (hall s hs).1
        (hall s hs).2.1 (hall s hs).2.2)
  · intro w hw
    unfold durmuhurtam at hw
    obtain ⟨s, _, hc⟩ := List.mem_filterMap.mp hw
    exact clipWindow_sound hc

/-- C3 witness: the Dur Muhurtam theorem at sunrise 07:00, sunset 18:00,
next sunrise 07:00 the next day, on a Tuesday (the weekday with a night
window). -/
theorem durmuhurtam_weekday_table_witness :
    durmuhurtam ⟨420, 1080, 1860⟩ .tue =
      (durTable .tue).map (durWindowRaw ⟨420, 1080, 1860⟩) ∧
    ∀ w ∈ durmuhurtam ⟨420, 1080, 1860⟩ .tue,
      (420 : ℚ) ≤ w.start ∧ w.start < w.stop ∧ w.stop ≤ 1860 :=
  durmuhurtam_weekday_table ⟨420, 1080, 1860⟩ (by norm_num) (by norm_num) .tue

/-- C6: with a monotone Moon-longitude ephemeris whose day span covers at
most two nakshatra segments, the engine returns between 0 and 2 varjyam
windows; each returned window is the exact root-finding solution for its
segment's thyajya sub-range clipped to the Hindu day (so it matches the
root-finding solution with zero error, well within 1 minute), and a candidate
segment contributes a window exactly when its thyajya time range overlaps
`[sunrise, nextSunrise)`. -/
theorem varjyam_emission (m0 rate sunrise nextSunrise : ℚ) (thyB thyE : ℤ → ℚ)
    (hrate : 0 < rate)
    (hspan : segAt m0 rate nextSunrise ≤ segAt m0 rate sunrise + 1) :
    (varjyam m0 rate sunrise nextSunrise thyB thyE).length ≤ 2 ∧
    (∀ w ∈ varjyam m0 rate sunrise nextSunrise thyB thyE,
      ∃ k ∈ candidateSegs m0 rate sunrise nextSunrise,
        w.start = max ((thyB k - m0) / rate) sunrise ∧
        w.stop = min ((thyE k - m0) / rate) nextSunrise ∧
        sunrise ≤ w.start ∧ w.start < w.stop ∧ w.stop ≤ nextSunrise ∧
        moonLon m0 rate ((thyB k - m0) / rate) = thyB k ∧
        moonLon m0 rate ((thyE k - m0) / rate) = thyE k) ∧
    (∀ k ∈ candidateSegs m0 rate sunrise nextSunrise,
      (∃ w ∈ varjyam m0 rate sunrise nextSunrise thyB thyE,
          varjyamSeg m0 rate sunrise nextSunrise (thyB k) (thyE k) = some w) ↔
        max ((thyB k - m0) / rate) sunrise <
          min ((thyE k - m0) / rate) nextSunrise) := by
  have hne : rate ≠ 0 := ne_of_gt hrate
  refine ⟨le_trans (List.length_filterMap_le _ _)
    (length_candidateSegs m0 rate sunrise nextSunrise hspan), ?_, ?_⟩
  · intro w hw
    obtain ⟨k, hk, hsome⟩ := List.mem_filterMap.mp hw
    obtain ⟨hshape, hlt⟩ := clipWindow_eq hsome
    have hsound := clipWindow_sound hsome
    refine ⟨k, hk, ?_, ?_, hsound.1, hsound.2.1, hsound.2.2, ?_, ?_⟩
    · rw [hshape]
    · rw [hshape]
    · simp only [moonLon]
      field_simp
    · simp only [moonLon]
      field_simp
  · intro k hk
    constructor
    · rintro ⟨w, _, hsome⟩
      exact (clipWindow_eq hsome).2
    · intro hlt
      refine ⟨⟨max ((thyB k - m0) / rate) sunrise,
        min ((thyE k - m0) / rate) nextSunrise⟩, ?_, ?_⟩
      · exact List.mem_filterMap.mpr ⟨k, hk, by
          simp only [varjyamSeg, clipWindow]
          rw [if_pos hlt]⟩
      · simp only [varjyamSeg, clipWindow]
        rw [if_pos hlt]

/-- C6 witness: the varjyam theorem at a concrete day (sunrise 07:00, next
sunrise 07:00 next day) with the Moon moving one nakshatra width per civil
day (`rate = 1/108` degree per minute from longitude 0) and the thyajya
sub-range `[k*40/3 + 10, k*40/3 + 12)` in every segment. -/
theorem varjyam_emission_witness :
    (varjyam 0 (1 / 108) 420 1860 (fun k => k * (40 / 3) + 10)
      (fun k => k * (40 / 3) + 12)).length ≤ 2 ∧
    (∀ w ∈ varjyam 0 (1 / 108) 420 1860 (fun k => k * (40 / 3) + 10)
        (fun k => k * (40 / 3) + 12),
      ∃ k ∈ candidateSegs 0 (1 / 108) 420 1860,
        w.start = max (((k : ℚ) * (40 / 3) + 10 - 0) / (1 / 108)) 420 ∧
        w.stop = min (((k : ℚ) * (40 / 3) + 12 - 0) / (1 / 108)) 1860 ∧
        (420 : ℚ) ≤ w.start ∧ w.start < w.stop ∧ w.stop ≤ 1860 ∧
        moonLon 0 (1 / 108) (((k : ℚ) * (40 / 3) + 10 - 0) / (1 / 108)) =
          (k : ℚ) * (40 / 3) + 10 ∧
        moonLon 0 (1 / 108) (((k : ℚ) * (40 / 3) + 12 - 0) / (1 / 108)) =
          (k : ℚ) * (40 / 3) + 12) ∧
    (∀ k ∈ candidateSegs 0 (1 / 108) 420 1860,
      (∃ w ∈ varjyam 0 (1 / 108) 420 1860 (fun k => k * (40 / 3) + 10)
          (fun k => k * (40 / 3) + 12),
          varjyamSeg 0 (1 / 108) 420 1860 ((k : ℚ) * (40 / 3) + 10)
            ((k : ℚ) * (40 / 3) + 12) = some w) ↔
        max (((k : ℚ) * (40 / 3) + 10 - 0) / (1 / 108)) 420 <
          min (((k : ℚ) * (40 / 3) + 12 - 0) / (1 / 108)) 1860) :=
  varjyam_emission 0 (1 / 108) 420 1860 (fun k => k * (40 / 3) + 10)
    (fun k => k * (40 / 3) + 12) (by norm_num)
    (by norm_num [segAt, moonLon, nakWidth])

/-- C5 counterexample: with sunrise at 07:00 (minute 420 of the request
date), Brahma Muhurta starts at 05:24 (minute 324) of the SAME civil day, so
the window does not lie in the previous civil day and its calendar date label
is not distinct from the Hindu-day start's. -/
theorem brahma_previous_day_counterexample :
    (brahmaMuhurta 420).start = 324 ∧
    civilDayIndex (brahmaMuhurta 420).start = civilDayIndex (420 : ℚ) ∧
    ¬ civilDayIndex (brahmaMuhurta 420).start < civilDayIndex (420 : ℚ) := by
  have h324 : civilDayIndex ((324 : ℚ)) = 0 := by
    unfold civilDayIndex
    norm_num
  have h420 : civilDayIndex ((420 : ℚ)) = 0 := by
    unfold civilDayIndex
    norm_num
  have hs : (brahmaMuhurta 420).start = 324 := by norm_num [brahmaMuhurta]
  rw [hs, h324, h420]
  norm_num

/-- C5 (amended): for a sunrise within the request's civil date, Brahma
Muhurta equals `[sunrise - 96min, sunrise - 48min)`; it lies entirely before
sunrise and hence before the Hindu-day start, and the engine reports it
unclipped; its calendar date label differs from the Hindu-day start's date
exactly when sunrise is earlier than 96 minutes after local midnight (for an
ordinary morning sunrise the window is in the same civil day). -/
theorem brahma_muhurta_spec (sunrise : ℚ) (h0 : 0 ≤ sunrise)
    (h1 : sunrise < 1440) :
    brahmaMuhurta sunrise = ⟨sunrise - 96, sunrise - 48⟩ ∧
    (brahmaMuhurta sunrise).stop < sunrise ∧
    (brahmaMuhurta sunrise).start < sunrise ∧
    (∀ (e : EphemerisDay) (wd : Weekday) (m0 rate : ℚ) (thyB thyE : ℤ → ℚ),
      (computeTimings e wd m0 rate thyB thyE).brahmaMuhurta =
        brahmaMuhurta e.sunrise) ∧
    (civilDayIndex (brahmaMuhurta sunrise).start ≠ civilDayIndex sunrise ↔
      sunrise < 96) := by
  have hz : civilDayIndex sunrise = 0 := by
    have hm : sunrise / 1440 ∈ Set.Ico (0 : ℚ) 1 :=
      ⟨by positivity, by rw [div_lt_one (by norm_num)]; linarith⟩
    simpa [civilDayIndex, Int.floor_eq_zero_iff] using hm
  refine ⟨rfl, by simp [brahmaMuhurta], by simp [brahmaMuhurta],
    fun _ _ _ _ _ _ => rfl, ?_⟩
  rw [hz]
  constructor
  · intro hne
    by_contra hge
    push_neg at hge
    apply hne
    have hm : (sunrise - 96) / 1440 ∈ Set.Ico (0 : ℚ) 1 :=
      ⟨div_nonneg (by linarith) (by norm_num), by rw [div_lt_one (by norm_num)]; linarith⟩
    simpa [brahmaMuhurta, civilDayIndex, Int.floor_eq_zero_iff] using hm
  · intro hlt
    have hneg : (sunrise - 96) / 1440 < 0 :=
      div_neg_of_neg_of_pos (by linarith) (by norm_num)
    have : civilDayIndex (sunrise - 96) < 0 := by
      simpa [civilDayIndex, Int.floor_lt] using hneg
    simp only [brahmaMuhurta]
    omega

/-- C9 counterexample: `parseGuidanceRaw` is not total — on a payload whose
matched English block has a prediction with no direct predictions text and a
`timeFrames` array containing `null`, the unguarded `frame.predictions`
access throws a TypeError, so it does not return the empty map or any map. -/
theorem parseGuidanceRaw_throws :
    parseGuidanceRaw brokenGuidanceRaw .en [] =
      .error "TypeError: cannot read properties of null" := rfl

/-- C9 (amended): `getSignBlocks` never throws, and both parsers return the
empty result on degenerate input — `null`, booleans, numbers, strings, and
any payload with no block whose `language` equals the English name of the
requested language; `parseGuidanceRaw` can throw (only) via the unguarded
`frame.predictions` access on a null time frame, and whenever it does return
a map, every key is either the code of the first sign whose
code/displayName/english/tamil/hindi matches the prediction's `zodiacSign`
case-insensitively, or the raw `zodiacSign` string itself. -/
theorem guidance_parsers_totality :
    (∀ (language : Language) (signs : List ZodiacSign) (signCode : String),
      parseGuidanceRaw .null language signs = .ok [] ∧
      getSignBlocks .null language signs signCode = [] ∧
      (∀ b, parseGuidanceRaw (.bool b) language signs = .ok [] ∧
        getSignBlocks (.bool b) language signs signCode = []) ∧
      (∀ q, parseGuidanceRaw (.num q) language signs = .ok [] ∧
        getSignBlocks (.num q) language signs signCode = []) ∧
      (∀ s, parseGuidanceRaw (.str s) language signs = .ok [] ∧
        getSignBlocks (.str s) language signs signCode = [])) ∧
    (∀ (raw : JsVal) (language : Language) (signs : List ZodiacSign)
        (signCode : String),
      languageBlockFor raw language = none →
      parseGuidanceRaw raw language signs = .ok [] ∧
      getSignBlocks raw language signs signCode = []) ∧
    (∀ (raw : JsVal) (language : Language) (signs : List ZodiacSign)
        (m : List (String × JsVal)),
      parseGuidanceRaw raw language signs = .ok m →
      ∀ k ∈ m.map Prod.fst, keyFromPreds signs (predsOf raw language) k) := by
  refine ⟨fun language signs signCode =>
    ⟨rfl, rfl, fun b => ⟨rfl, rfl⟩, fun q => ⟨rfl, rfl⟩, fun s => ⟨rfl, rfl⟩⟩,
    ?_, ?_⟩
  · intro raw language signs signCode hnone
    cases raw with
    | null => exact ⟨rfl, rfl⟩
    | bool b => exact ⟨rfl, rfl⟩
    | num q => exact ⟨rfl, rfl⟩
    | str s => exact ⟨rfl, rfl⟩
    | arr xs =>
        constructor
        · simp only [parseGuidanceRaw]
          rw [hnone]
        · simp only [getSignBlocks]
          rw [hnone]
    | obj fs =>
        constructor
        · simp only [parseGuidanceRaw]
          rw [hnone]
        · simp only [getSignBlocks]
          rw [hnone]
  · intro raw language signs m h k hk
    cases raw with
    | null => cases h; simp at hk
    | bool b => cases h; simp at hk
    | num q => cases h; simp at hk
    | str s => cases h; simp at hk
    | arr xs =>
        simp only [parseGuidanceRaw] at h
        rcases hb : languageBlockFor (.arr xs) language with _ | block
        · rw [hb] at h
          cases h
          simp at hk
        · rw [hb] at h
          have := parseLoop_keys signs _ [] m h k hk
          rcases this with habs | hkey
          · simp at habs
          · simpa only [predsOf, hb] using hkey
    | obj fs =>
        simp only [parseGuidanceRaw] at h
        rcases hb : languageBlockFor (.obj fs) language with _ | block
        · rw [hb] at h
          cases h
          simp at hk
        · rw [hb] at h
          have := parseLoop_keys signs _ [] m h k hk
          rcases this with habs | hkey
          · simp at habs
          · simpa only [predsOf, hb] using hkey

/-- C9 witness: the amended theorem applied concretely — the no-matching-block
clause at `null`, and the key-provenance clause at a well-formed payload whose
single key "Aries" comes from the prediction's `zodiacSign`. -/
theorem guidance_parsers_totality_witness :
    (parseGuidanceRaw .null .en [] = .ok [] ∧
      getSignBlocks .null .en [] "aries" = []) ∧
    (∀ k ∈ ([("Aries", JsVal.str "Good day")]).map Prod.fst,
      keyFromPreds [] (predsOf sampleGuidanceRaw .en) k) :=
  ⟨guidance_parsers_totality.2.1 .null .en [] "aries" rfl,
   guidance_parsers_totality.2.2 sampleGuidanceRaw .en []
     [("Aries", JsVal.str "Good day")] (by rfl)⟩

/-- C10: for every input chart the South-Indian layout is a 16-cell grid in
which exactly the 12 border cells are populated — Meena at index 0 then
Mesha, Vrishabha, Mithuna (top row), Karka, Simha, Kanya (right column),
Tula, Vrishchika, Dhanu (bottom row), Makara, Kumbha (left column) clockwise
around the frame — the 4 inner cells (indices 5, 6, 9, 10) are empty, and a
rasi whose label is absent from the input (no exact alias match and no
substring match) is still rendered with its canonical alias name and empty
bodies. -/
theorem southIndianChart_layout :
    (∀ chart : List (List Cell),
      southIndianCells chart =
        [some (findCell (labelMapOf chart) "Meena"),
         some (findCell (labelMapOf chart) "Mesha"),
         some (findCell (labelMapOf chart) "Vrishabha"),
         some (findCell (labelMapOf chart) "Mithuna"),
         some (findCell (labelMapOf chart) "Kumbha"), none, none,
         some (findCell (labelMapOf chart) "Karka"),
         some (findCell (labelMapOf chart) "Makara"), none, none,
         some (findCell (labelMapOf chart) "Simha"),
         some (findCell (labelMapOf chart) "Dhanu"),
         some (findCell (labelMapOf chart) "Vrishchika"),
         some (findCell (labelMapOf chart) "Tula"),
         some (findCell (labelMapOf chart) "Kanya")]) ∧
    (∀ chart : List (List Cell), (southIndianCells chart).length = 16) ∧
    (∀ (m : List (String × Cell)) (keyName : String),
      findCellExact m (aliases keyName) = none →
      findCellSub (aliases keyName) m = none →
      findCell m keyName = ⟨(aliases keyName).headD keyName, ""⟩) := by
  refine ⟨fun chart => rfl, fun chart => rfl, fun m keyName he hs => ?_⟩
  simp only [findCell]
  rw [he, hs]

/-- C10 witness: the layout theorem's absent-rasi clause at the empty chart
(empty label map) for the key "Meena". -/
theorem southIndianChart_layout_witness :
    findCell [] "Meena" = ⟨(aliases "Meena").headD "Meena", ""⟩ :=
  southIndianChart_layout.2.2 [] "Meena" rfl rfl

/-- C5 witness: the amended theorem applied at the concrete sunrise 07:00
(minute 420). -/
theorem brahma_muhurta_spec_witness :
    brahmaMuhurta 420 = ⟨420 - 96, 420 - 48⟩ ∧
    (brahmaMuhurta 420).stop < 420 ∧
    (brahmaMuhurta 420).start < 420 ∧
    (∀ (e : EphemerisDay) (wd : Weekday) (m0 rate : ℚ) (thyB thyE : ℤ → ℚ),
      (computeTimings e wd m0 rate thyB thyE).brahmaMuhurta =
        brahmaMuhurta e.sunrise) ∧
    (civilDayIndex (brahmaMuhurta 420).start ≠ civilDayIndex 420 ↔
      (420 : ℚ) < 96) :=
  brahma_muhurta_spec 420 (by norm_num) (by norm_num)

end Horos
